import Mathlib

/-!
Verification of the Arke chat frontend (src/frontend/src/app/page.tsx) and of
the spec-level query-cache invalidation rule.  The TypeScript component state
is embedded as explicit state passing: each React `setX` call becomes a field
update, each `fetch` becomes an element of an emitted request trace, and the
streamed response body becomes a list of already-decoded text fragments.
-/

namespace Arke

/-- JavaScript whitespace as used by `String.prototype.trim` (WhiteSpace and
LineTerminator code points). -/
def isJSWhitespace (c : Char) : Bool :=
  c == ' ' || c == '\t' || c == '\n' || c == '\r' || c == '\x0b' || c == '\x0c' ||
  c == Char.ofNat 0xA0 || c == Char.ofNat 0xFEFF || c == Char.ofNat 0x1680 ||
  c == Char.ofNat 0x2000 || c == Char.ofNat 0x2001 || c == Char.ofNat 0x2002 ||
  c == Char.ofNat 0x2003 || c == Char.ofNat 0x2004 || c == Char.ofNat 0x2005 ||
  c == Char.ofNat 0x2006 || c == Char.ofNat 0x2007 || c == Char.ofNat 0x2008 ||
  c == Char.ofNat 0x2009 || c == Char.ofNat 0x200A || c == Char.ofNat 0x2028 ||
  c == Char.ofNat 0x2029 || c == Char.ofNat 0x202F || c == Char.ofNat 0x205F ||
  c == Char.ofNat 0x3000

/-- Drop trailing JS whitespace from a character list. -/
def dropTrailingWS (l : List Char) : List Char :=
  (l.reverse.dropWhile isJSWhitespace).reverse

/-- JavaScript `String.prototype.trim`: remove leading and trailing whitespace. -/
def jsTrim (s : String) : String :=
  String.mk (dropTrailingWS (s.data.dropWhile isJSWhitespace))

theorem jsTrim_eq_empty_iff (s : String) :
    (jsTrim s == "") = s.data.all isJSWhitespace := by
  have hmk : ∀ l : List Char, (String.mk l == String.mk []) = true ↔ l = [] := by
    intro l
    constructor
    · intro h
      have := of_decide_eq_true h
      exact congrArg String.data this
    · intro h
      subst h
      exact decide_eq_true rfl
  by_cases hall : s.data.all isJSWhitespace = true
  · rw [hall]
    have h1 : s.data.dropWhile isJSWhitespace = [] := by
      rw [List.dropWhile_eq_nil_iff]
      intro x hx
      exact List.all_eq_true.mp hall x hx
    show (jsTrim s == "") = true
    unfold jsTrim dropTrailingWS
    rw [h1]
    simp
  · rw [eq_false_of_ne_true hall]
    rw [Bool.eq_false_iff]
    intro hcontra
    apply hall
    rw [List.all_eq_true]
    intro x hx
    -- from jsTrim s == "" we get that every character of s.data is whitespace
    have hnil : dropTrailingWS (s.data.dropWhile isJSWhitespace) = [] := by
      have := (hmk _).mp hcontra
      exact this
    unfold dropTrailingWS at hnil
    rw [List.reverse_eq_nil_iff] at hnil
    rw [List.dropWhile_eq_nil_iff] at hnil
    have hdropall : ∀ y ∈ s.data.dropWhile isJSWhitespace, isJSWhitespace y := by
      intro y hy
      exact hnil y (List.mem_reverse.mpr hy)
    have hsplit := List.takeWhile_append_dropWhile isJSWhitespace s.data
    rw [← hsplit] at hx
    rcases List.mem_append.mp hx with h | h
    · exact List.mem_takeWhile_imp h
    · exact hdropall x h

theorem jsTrim_nonempty_append (a b : String) (h : (jsTrim a == "") = false) :
    (jsTrim (a ++ b) == "") = false := by
  rw [jsTrim_eq_empty_iff] at h ⊢
  rw [String.data_append]
  rw [List.all_append]
  rw [h]
  rw [Bool.false_and]

theorem jsTrim_empty_of_append (a b : String) (h : (jsTrim (a ++ b) == "") = true) :
    (jsTrim a == "") = true ∧ (jsTrim b == "") = true := by
  rw [jsTrim_eq_empty_iff] at h ⊢
  rw [jsTrim_eq_empty_iff]
  rw [String.data_append, List.all_append] at h
  exact ⟨(Bool.and_eq_true _ _).mp h |>.1, (Bool.and_eq_true _ _).mp h |>.2⟩

/-- Message role, `src/frontend/src/app/page.tsx` line 31. -/
inductive Role where
  | user
  | assistant
deriving DecidableEq, Repr

/-- The `Message` interface, `page.tsx` lines 30-34. -/
structure Message where
  role : Role
  content : String
  responseTime : Option Nat := none
deriving DecidableEq, Repr

/-- The `Thread` interface, `page.tsx` lines 22-28. -/
structure Thread where
  id : String
  title : String
  created_at : Int
  updated_at : Int
  message_count : Nat
deriving DecidableEq, Repr

/-- The component state touched by the handlers under verification. -/
structure ChatState where
  messages : List Message
  input : String
  isLoading : Bool
  chatStarted : Bool
  threadId : String
  threads : List Thread
deriving DecidableEq, Repr

/-- One HTTP request issued by the frontend. -/
inductive Request where
  | chatPost (message : String) (thread_id : String)
  | deleteThread (id : String)
  | createThreadPost
  | getThreads
deriving DecidableEq, Repr

/-- State of the stream-consuming loop of `handleSubmit` (`page.tsx` lines
183-202): the rendered message list, the `accumulated` string, and the
`assistantMessageAdded` flag. -/
structure StreamState where
  messages : List Message
  accumulated : String
  added : Bool
deriving DecidableEq, Repr

/-- JS `Array.prototype.map` with the element index, as used by the
`setMessages(prev => prev.map((msg, i) => ...))` updates. -/
def mapWithIndex (f : Nat → Message → Message) : List Message → Nat → List Message
  | [], _ => []
  | m :: ms, i => f i m :: mapWithIndex f ms (i + 1)

/-- The update `prev.map((msg, i) => i === prev.length - 1 && msg.role ===
'assistant' ? { ...msg, content: accumulated } : msg)`, `page.tsx`
lines 196-200. -/
def updateLastAssistantContent (msgs : List Message) (acc : String) : List Message :=
  mapWithIndex
    (fun i msg =>
      if i = msgs.length - 1 ∧ msg.role = Role.assistant then
        { msg with content := acc }
      else msg)
    msgs 0

/-- The update `prev.map((msg, i) => i === prev.length - 1 && msg.role ===
'assistant' ? { ...msg, responseTime: finalResponseTime } : msg)`,
`page.tsx` lines 204-208. -/
def attachResponseTime (msgs : List Message) (rt : Nat) : List Message :=
  mapWithIndex
    (fun i msg =>
      if i = msgs.length - 1 ∧ msg.role = Role.assistant then
        { msg with responseTime := some rt }
      else msg)
    msgs 0

/-- One iteration of the `while (true)` read loop, `page.tsx` lines 187-202:
append the decoded chunk to `accumulated`, then either add the first assistant
message (once the accumulated text trims non-empty), update the last assistant
message, or do nothing. -/
def streamStep (s : StreamState) (chunk : String) : StreamState :=
  let acc := s.accumulated ++ chunk
  if s.added = false ∧ (jsTrim acc == "") = false then
    { messages := s.messages ++ [{ role := Role.assistant, content := acc }],
      accumulated := acc, added := true }
  else if s.added = true then
    { messages := updateLastAssistantContent s.messages acc,
      accumulated := acc, added := s.added }
  else
    { s with accumulated := acc }

/-- Run the read loop over the whole (finite) list of decoded fragments. -/
def consumeStream (msgs0 : List Message) (chunks : List String) : StreamState :=
  chunks.foldl streamStep { messages := msgs0, accumulated := "", added := false }

/-- The concatenation, in arrival order, of the decoded stream fragments. -/
def concatChunks : List String → String
  | [] => ""
  | c :: cs => c ++ concatChunks cs

/-- The fixed user-facing error text, `page.tsx` line 217. -/
def errorText : String := "Sorry, there was an error processing your message."

/-- Outcome of the `fetch` to `POST /chat`: the fetch throws, the response is
not ok (line 175), the body has no reader (line 180), or the streamed body
arrives as a list of decoded fragments. -/
inductive ChatOutcome where
  | fetchError (detail : String)
  | notOk
  | noReader
  | success (chunks : List String)
deriving DecidableEq, Repr

/-- The error detail string passed to `console.error` in the catch branch:
`new Error('Failed to get response')` for a non-ok response, `new Error('No
response body')` for a missing reader, or the network error itself. -/
def errorDetail : ChatOutcome → String
  | ChatOutcome.fetchError detail => detail
  | ChatOutcome.notOk => "Failed to get response"
  | ChatOutcome.noReader => "No response body"
  | ChatOutcome.success _ => ""

/-- Whether the outcome takes the catch branch of `handleSubmit`. -/
def isErrorOutcome : ChatOutcome → Bool
  | ChatOutcome.fetchError _ => true
  | ChatOutcome.notOk => true
  | ChatOutcome.noReader => true
  | ChatOutcome.success _ => false

/-- `handleSubmit`, `page.tsx` lines 152-223, as a function of the component
state, the outcome of the chat request, the measured elapsed time `rt`, and
the response to the follow-up `fetchThreads` call (`none` when that call
fails or returns non-ok).  Result: new state, issued requests in order, and
console-error log entries. -/
def handleSubmit (st : ChatState) (outcome : ChatOutcome) (rt : Nat)
    (threadsResp : Option (List Thread)) : ChatState × List Request × List String :=
  if jsTrim st.input == "" || st.isLoading then (st, [], [])
  else
    let userMessage : Message := { role := Role.user, content := st.input }
    let msgs1 := st.messages ++ [userMessage]
    let req := Request.chatPost st.input st.threadId
    match outcome with
    | ChatOutcome.success chunks =>
        let s := consumeStream msgs1 chunks
        let msgs2 := attachResponseTime s.messages rt
        let newThreads :=
          match threadsResp with
          | some ts => ts
          | none => st.threads
        ({ st with
            messages := msgs2, input := "", chatStarted := true,
            isLoading := false, threads := newThreads },
         [req, Request.getThreads], [])
    | e =>
        ({ st with
           messages := msgs1 ++
             [{ role := Role.assistant, content := errorText, responseTime := some rt }],
           input := "", chatStarted := true, isLoading := false },
         [req], [errorDetail e])

/-- Version-4 UUID hex digit: `v.toString(16)` for `v < 16`. -/
def hexDigit (v : Nat) : Char :=
  if v < 10 then Char.ofNat (48 + v) else Char.ofNat (87 + v)

/-- The template string of `generateUUID`, `page.tsx` line 37. -/
def uuidTemplate : List Char := String.toList ("xxxxxxxx-xxxx-4xxx-yxxx-xxxxxxxxxxxx")

/-- The `replace(/[xy]/g, ...)` callback applied along the template: each `x`
or `y` consumes the next value of the random source `rs` (the floor of
`Math.random() * 16`); `x` becomes `r.toString(16)` and `y` becomes
`(r & 0x3 | 0x8).toString(16)`. -/
def genUUIDChars (rs : Nat → Nat) : List Char → Nat → List Char
  | [], _ => []
  | c :: cs, i =>
    if c = 'x' then hexDigit (rs i) :: genUUIDChars rs cs (i + 1)
    else if c = 'y' then hexDigit ((rs i &&& 0x3) ||| 0x8) :: genUUIDChars rs cs (i + 1)
    else c :: genUUIDChars rs cs i

/-- `generateUUID`, `page.tsx` lines 36-42, over an explicit random source. -/
def generateUUID (rs : Nat → Nat) : String :=
  String.mk (genUUIDChars rs uuidTemplate 0)

/-- `createThread`, `page.tsx` lines 100-116: POST to `/threads`; on an ok
response prepend the returned thread and return its id, otherwise (non-ok or
thrown fetch) fall through to `return generateUUID()`. -/
def createThread (st : ChatState) (resp : Option Thread) (rs : Nat → Nat) :
    ChatState × List Request × String :=
  match resp with
  | some thread =>
      ({ st with threads := thread :: st.threads },
       [Request.createThreadPost], thread.id)
  | none => (st, [Request.createThreadPost], generateUUID rs)

/-- `handleNewChat`, `page.tsx` lines 225-251: issue a DELETE for every thread
with `message_count === 0`, remove them from the local list, create one new
thread, and reset the chat state. -/
def handleNewChat (st : ChatState) (resp : Option Thread) (rs : Nat → Nat) :
    ChatState × List Request :=
  let emptyThreads := st.threads.filter (fun t => t.message_count == 0)
  let deleteReqs := emptyThreads.map (fun t => Request.deleteThread t.id)
  let threads1 :=
    if emptyThreads.length > 0 then
      let emptyThreadIds := emptyThreads.map Thread.id
      st.threads.filter (fun t => !(emptyThreadIds.contains t.id))
    else st.threads
  let r := createThread { st with threads := threads1 } resp rs
  ({ r.1 with
      messages := [], input := "", isLoading := false,
      chatStarted := false, threadId := r.2.2 },
   deleteReqs ++ r.2.1)

/-- The message area of the chat interface (`page.tsx` lines 494-530) renders
`messages.map((message, index) => ...)`: the displayed sequence is the list in
ascending index order. -/
def displayedMessages (msgs : List Message) : List Message :=
  mapWithIndex (fun _ m => m) msgs 0

/-! ### Helper lemmas about the indexed map and the stream loop -/

theorem mapWithIndex_append (f : Nat → Message → Message) (l1 l2 : List Message) (s : Nat) :
    mapWithIndex f (l1 ++ l2) s = mapWithIndex f l1 s ++ mapWithIndex f l2 (s + l1.length) := by
  induction l1 generalizing s with
  | nil => simp [mapWithIndex]
  | cons m ms ih =>
    simp only [List.cons_append, List.append_eq, mapWithIndex, List.length_cons, ih]
    rw [show s + (ms.length + 1) = s + 1 + ms.length by omega]

theorem mapWithIndex_eq_self (f : Nat → Message → Message) (l : List Message) (s : Nat)
    (h : ∀ i m, s ≤ i → i < s + l.length → f i m = m) :
    mapWithIndex f l s = l := by
  induction l generalizing s with
  | nil => rfl
  | cons m ms ih =>
    simp only [mapWithIndex]
    rw [h s m (Nat.le_refl s) (by simp only [List.length_cons]; omega)]
    rw [ih (s + 1) (fun i mm h1 h2 => h i mm (by omega) (by simp only [List.length_cons]; omega))]

theorem mapWithIndex_last_update (g : Message → Message) (l : List Message) (m : Message) :
    mapWithIndex
      (fun i msg =>
        if i = (l ++ [m]).length - 1 ∧ msg.role = Role.assistant then g msg else msg)
      (l ++ [m]) 0
    = l ++ [if m.role = Role.assistant then g m else m] := by
  rw [mapWithIndex_append]
  congr 1
  · apply mapWithIndex_eq_self
    intro i mm h0 hi
    apply if_neg
    rintro ⟨h1, _⟩
    simp only [List.length_append, List.length_cons, List.length_nil, Nat.zero_add] at h1 hi
    omega
  · simp only [mapWithIndex, List.length_append, List.length_cons, List.length_nil, Nat.zero_add]
    by_cases hr : m.role = Role.assistant
    · rw [if_pos ⟨by omega, hr⟩, if_pos hr]
    · rw [if_neg (by rintro ⟨_, hh⟩; exact hr hh), if_neg hr]

theorem updateLastAssistantContent_append (l : List Message) (m : Message)
    (hm : m.role = Role.assistant) (acc : String) :
    updateLastAssistantContent (l ++ [m]) acc = l ++ [{ m with content := acc }] := by
  unfold updateLastAssistantContent
  rw [mapWithIndex_last_update (fun msg => { msg with content := acc })]
  rw [if_pos hm]

theorem attachResponseTime_append (l : List Message) (m : Message) (rt : Nat) :
    attachResponseTime (l ++ [m]) rt
    = l ++ [if m.role = Role.assistant then { m with responseTime := some rt } else m] := by
  unfold attachResponseTime
  rw [mapWithIndex_last_update (fun msg => { msg with responseTime := some rt })]

theorem concatChunks_append (p q : List String) :
    concatChunks (p ++ q) = concatChunks p ++ concatChunks q := by
  induction p with
  | nil => simp [concatChunks]
  | cons c cs ih => simp [concatChunks, ih, String.append_assoc]

theorem consume_phase2 (msgs0 : List Message) (acc : String) (chunks : List String) :
    List.foldl streamStep
      { messages := msgs0 ++ [{ role := Role.assistant, content := acc }],
        accumulated := acc, added := true } chunks
    = { messages := msgs0 ++ [{ role := Role.assistant, content := acc ++ concatChunks chunks }],
        accumulated := acc ++ concatChunks chunks, added := true } := by
  induction chunks generalizing acc with
  | nil => simp [concatChunks]
  | cons c cs ih =>
    simp only [List.foldl_cons]
    have hstep :
        streamStep
          { messages := msgs0 ++ [{ role := Role.assistant, content := acc }],
            accumulated := acc, added := true } c
        = { messages := msgs0 ++ [{ role := Role.assistant, content := acc ++ c }],
            accumulated := acc ++ c, added := true } := by
      unfold streamStep
      rw [if_neg (by rintro ⟨h, _⟩; exact Bool.noConfusion h)]
      rw [if_pos rfl]
      rw [updateLastAssistantContent_append _ _ rfl]
    rw [hstep, ih (acc ++ c)]
    simp [concatChunks, String.append_assoc]

theorem consume_phase1 (msgs0 : List Message) (acc : String) (chunks : List String)
    (hacc : (jsTrim acc == "") = true) :
    List.foldl streamStep { messages := msgs0, accumulated := acc, added := false } chunks
    = if jsTrim (acc ++ concatChunks chunks) == "" then
        { messages := msgs0, accumulated := acc ++ concatChunks chunks, added := false }
      else
        { messages := msgs0 ++
            [{ role := Role.assistant, content := acc ++ concatChunks chunks }],
          accumulated := acc ++ concatChunks chunks, added := true } := by
  induction chunks generalizing acc with
  | nil =>
    simp only [List.foldl_nil, concatChunks, String.append_empty]
    rw [if_pos hacc]
  | cons c cs ih =>
    simp only [List.foldl_cons, concatChunks]
    by_cases hc : (jsTrim (acc ++ c) == "") = true
    · have hstep :
          streamStep { messages := msgs0, accumulated := acc, added := false } c
          = { messages := msgs0, accumulated := acc ++ c, added := false } := by
        unfold streamStep
        rw [if_neg (by rintro ⟨_, h2⟩; rw [hc] at h2; exact Bool.noConfusion h2)]
        rw [if_neg (by intro h; exact Bool.noConfusion h)]
      rw [hstep, ih (acc ++ c) hc]
      rw [← String.append_assoc]
    · have hcf : (jsTrim (acc ++ c) == "") = false := eq_false_of_ne_true hc
      have hstep :
          streamStep { messages := msgs0, accumulated := acc, added := false } c
          = { messages := msgs0 ++ [{ role := Role.assistant, content := acc ++ c }],
              accumulated := acc ++ c, added := true } := by
        unfold streamStep
        rw [if_pos ⟨rfl, hcf⟩]
      rw [hstep, consume_phase2]
      rw [if_neg (by
        rw [← String.append_assoc]
        intro h
        rw [jsTrim_nonempty_append (acc ++ c) (concatChunks cs) hcf] at h
        exact Bool.noConfusion h)]
      rw [← String.append_assoc]

theorem consumeStream_eq (msgs0 : List Message) (chunks : List String) :
    consumeStream msgs0 chunks
    = if jsTrim (concatChunks chunks) == "" then
        { messages := msgs0, accumulated := concatChunks chunks, added := false }
      else
        { messages := msgs0 ++ [{ role := Role.assistant, content := concatChunks chunks }],
          accumulated := concatChunks chunks, added := true } := by
  unfold consumeStream
  rw [consume_phase1 msgs0 ("") chunks (by decide)]
  rw [String.empty_append]

/-! ### Query cache and corpus version (modelled from the spec)

The backend caching layer is not among the available repository sources (only
the frontend is), so the Query Cache and the Vector Index version counter are
modelled from the spec. -/

/-- Modelled from the spec: a `QueryCacheEntry` (spec section 3), keyed by the
normalized query and the corpus version it was computed against.  The backend
source implementing the Query Cache is missing from the sources. -/
structure QueryCacheEntry where
  normalized_query : String
  corpus_version : Nat
  answer : String
deriving DecidableEq, Repr

/-- Modelled from the spec: the Vector Index version counter together with the
Query Cache contents (spec sections 3, 4.2 and 4.3). -/
structure RagState where
  version : Nat
  cache : List QueryCacheEntry
deriving DecidableEq, Repr

/-- Modelled from the spec: `get(query, corpus_version)` returns a cached
entry only when its recorded `corpus_version` equals the current index
version; entries recorded against another version are treated as misses
(lazy invalidation, spec section 4.3). -/
def cacheGet (st : RagState) (q : String) : Option QueryCacheEntry :=
  st.cache.find? (fun e => e.normalized_query == q && e.corpus_version == st.version)

/-- Modelled from the spec: `put(query, corpus_version, answer, ...)` records
the answer against the current corpus version (spec sections 4.3 and 4.5). -/
def cachePut (st : RagState) (q answer : String) : RagState :=
  { st with
      cache := { normalized_query := q, corpus_version := st.version,
                 answer := answer } :: st.cache }

/-- Modelled from the spec: a corpus mutation, i.e. an ingestion (`upsert`) or
a deletion (spec section 4.2). -/
inductive CorpusMutation where
  | ingestDocument
  | deleteDocument
deriving DecidableEq, Repr

/-- Modelled from the spec: every mutating call strictly increments the
monotonic version counter; cache entries are invalidated lazily, so they are
left in place (spec sections 3 and 4.3). -/
def applyMutation (st : RagState) (_m : CorpusMutation) : RagState :=
  { st with version := st.version + 1 }

/-- A sequence of corpus mutations applied in order. -/
def applyMutations (st : RagState) (ms : List CorpusMutation) : RagState :=
  ms.foldl applyMutation st

theorem applyMutations_spec (st : RagState) (ms : List CorpusMutation) :
    (applyMutations st ms).version = st.version + ms.length
    ∧ (applyMutations st ms).cache = st.cache := by
  induction ms generalizing st with
  | nil => exact ⟨rfl, rfl⟩
  | cons m ms ih =>
    have h := ih (applyMutation st m)
    simp only [applyMutations, List.foldl_cons] at h ⊢
    refine ⟨?_, h.2⟩
    rw [h.1]
    simp only [applyMutation, List.length_cons]
    omega

/-! ### Unfolding helpers for the handlers -/

theorem displayedMessages_eq (msgs : List Message) : displayedMessages msgs = msgs := by
  unfold displayedMessages
  exact mapWithIndex_eq_self _ _ _ (fun i m _ _ => rfl)

theorem handleSubmit_success_eq (st : ChatState) (chunks : List String) (rt : Nat)
    (tr : Option (List Thread))
    (hguard : (jsTrim st.input == "" || st.isLoading) = false) :
    handleSubmit st (ChatOutcome.success chunks) rt tr
    = ({ st with
          messages := attachResponseTime
            (consumeStream (st.messages ++ [{ role := Role.user, content := st.input }])
              chunks).messages rt,
          input := "", chatStarted := true, isLoading := false,
          threads := match tr with
            | some ts => ts
            | none => st.threads },
       [Request.chatPost st.input st.threadId, Request.getThreads], []) := by
  unfold handleSubmit
  rw [hguard]
  rfl

theorem handleSubmit_error_eq (st : ChatState) (outcome : ChatOutcome) (rt : Nat)
    (tr : Option (List Thread))
    (hguard : (jsTrim st.input == "" || st.isLoading) = false)
    (herr : isErrorOutcome outcome = true) :
    handleSubmit st outcome rt tr
    = ({ st with
          messages := (st.messages ++ [{ role := Role.user, content := st.input }]) ++
            [{ role := Role.assistant, content := errorText, responseTime := some rt }],
          input := "", chatStarted := true, isLoading := false },
       [Request.chatPost st.input st.threadId], [errorDetail outcome]) := by
  unfold handleSubmit
  rw [hguard]
  cases outcome with
  | fetchError d => rfl
  | notOk => rfl
  | noReader => rfl
  | success chunks => exact absurd herr (by simp [isErrorOutcome])

/-! ### Claim theorems -/

/-- C1: for every query Q cached at corpus version v, once any ingestion or
deletion advances the Vector Index version past v, a repeated lookup of Q no
longer returns the cached answer: right after the put the entry is returned,
any non-empty mutation sequence strictly advances the version, and the lookup
after the mutations treats the stale entry as a miss. -/
theorem c1_queryCache_never_returns_stale (st : RagState) (q answer : String)
    (ms : List CorpusMutation) (hms : ms ≠ [])
    (hinv : ∀ e ∈ st.cache, e.corpus_version ≤ st.version) :
    cacheGet (cachePut st q answer) q
      = some { normalized_query := q, corpus_version := st.version, answer := answer }
    ∧ st.version < (applyMutations (cachePut st q answer) ms).version
    ∧ cacheGet (applyMutations (cachePut st q answer) ms) q = none := by
  have hv := applyMutations_spec (cachePut st q answer) ms
  have hput : (cachePut st q answer).cache
      = { normalized_query := q, corpus_version := st.version, answer := answer }
        :: st.cache := rfl
  have hlen : 1 ≤ ms.length := by
    cases ms with
    | nil => exact absurd rfl hms
    | cons a l => simp
  have hversion : (cachePut st q answer).version = st.version := rfl
  refine ⟨?_, ?_, ?_⟩
  · unfold cacheGet
    rw [hput, List.find?_cons_of_pos _ (by simp [cachePut])]
  · rw [hv.1, hversion]
    omega
  · unfold cacheGet
    rw [List.find?_eq_none]
    intro e he hcond
    rw [hv.2, hput] at he
    have h2 := ((Bool.and_eq_true _ _).mp hcond).2
    have hev : e.corpus_version = (applyMutations (cachePut st q answer) ms).version := by
      simpa using h2
    have hle : e.corpus_version ≤ st.version := by
      rcases List.mem_cons.mp he with h | h
      · rw [h]
      · exact hinv e h
    rw [hv.1, hversion] at hev
    omega

/-- Witness for C1 at a concrete state: one cached answer, one ingestion. -/
theorem c1_queryCache_never_returns_stale_witness :
    ([CorpusMutation.ingestDocument] ≠ ([] : List CorpusMutation))
    ∧ (∀ e ∈ (RagState.mk 0 []).cache, e.corpus_version ≤ (RagState.mk 0 []).version)
    ∧ cacheGet (applyMutations (cachePut (RagState.mk 0 []) ("q") ("a"))
        [CorpusMutation.ingestDocument]) ("q") = none := by
  refine ⟨by decide, by simp, ?_⟩
  exact (c1_queryCache_never_returns_stale (RagState.mk 0 []) ("q") ("a")
    [CorpusMutation.ingestDocument] (by decide) (by simp)).2.2

/-- C7: when the thread list is sorted by descending `updated_at` and the
created thread is at least as recent as every existing one, the prepend done
by `createThread` preserves the descending order. -/
theorem c7_createThread_preserves_order (st : ChatState) (th : Thread) (rs : Nat → Nat)
    (hsorted : st.threads.Sorted (fun a b => b.updated_at ≤ a.updated_at))
    (hnew : ∀ t ∈ st.threads, t.updated_at ≤ th.updated_at) :
    (createThread st (some th) rs).1.threads = th :: st.threads
    ∧ ((createThread st (some th) rs).1.threads).Sorted
        (fun a b => b.updated_at ≤ a.updated_at) := by
  refine ⟨rfl, ?_⟩
  exact List.sorted_cons.mpr ⟨hnew, hsorted⟩

/-- Witness for C7 at a concrete sorted thread list and a fresh thread. -/
theorem c7_createThread_preserves_order_witness :
    ((([Thread.mk ("a") "A" 0 5 1, Thread.mk ("b") "B" 0 3 2] : List Thread)).Sorted
        (fun a b => b.updated_at ≤ a.updated_at))
    ∧ (∀ t ∈ ([Thread.mk ("a") "A" 0 5 1, Thread.mk ("b") "B" 0 3 2] : List Thread),
        t.updated_at ≤ (Thread.mk ("c") "C" 0 9 0).updated_at)
    ∧ ((createThread
          { messages := [], input := "", isLoading := false, chatStarted := false,
            threadId := "t",
            threads := [Thread.mk ("a") "A" 0 5 1, Thread.mk ("b") "B" 0 3 2] }
          (some (Thread.mk ("c") "C" 0 9 0)) (fun _ => 0)).1.threads).Sorted
        (fun a b => b.updated_at ≤ a.updated_at) := by
  refine ⟨?_, ?_, ?_⟩
  · simp [List.sorted_cons]
  · intro t ht
    simp at ht
    rcases ht with h | h <;> rw [h] <;> decide
  · exact (c7_createThread_preserves_order
      { messages := [], input := "", isLoading := false, chatStarted := false,
        threadId := "t",
        threads := [Thread.mk ("a") "A" 0 5 1, Thread.mk ("b") "B" 0 3 2] }
      (Thread.mk ("c") "C" 0 9 0) (fun _ => 0)
      (by simp [List.sorted_cons])
      (by intro t ht; simp at ht; rcases ht with h | h <;> rw [h] <;> decide)).2

/-- C8: when the input trims to the empty string or a request is already in
flight, `handleSubmit` returns immediately: no request is issued, nothing is
logged, and the whole component state is unchanged. -/
theorem c8_handleSubmit_guard (st : ChatState) (outcome : ChatOutcome) (rt : Nat)
    (tr : Option (List Thread))
    (h : (jsTrim st.input == "" || st.isLoading) = true) :
    handleSubmit st outcome rt tr = (st, [], []) := by
  unfold handleSubmit
  rw [h]
  rfl

/-- Witness for C8: a whitespace-only input with a request in flight. -/
theorem c8_handleSubmit_guard_witness :
    ((jsTrim (ChatState.mk [] "  " true false ("t") []).input
        == "" || (ChatState.mk [] "  " true false ("t") []).isLoading) = true)
    ∧ handleSubmit (ChatState.mk [] "  " true false ("t") [])
        (ChatOutcome.success ["x"]) 3 none
      = (ChatState.mk [] "  " true false ("t") [], [], []) := by
  refine ⟨by decide, ?_⟩
  exact c8_handleSubmit_guard (ChatState.mk [] "  " true false ("t") [])
    (ChatOutcome.success ["x"]) 3 none (by decide)

/-- C5: when the fetch fails, the response is not ok, or the body has no
reader, exactly one assistant message is appended after the user message, its
content is the fixed short non-technical error string, the error detail goes
only to the console log, and nothing else enters the message list. -/
theorem c5_error_surfaces_fixed_message (st : ChatState) (outcome : ChatOutcome)
    (rt : Nat) (tr : Option (List Thread))
    (hguard : (jsTrim st.input == "" || st.isLoading) = false)
    (herr : isErrorOutcome outcome = true) :
    (handleSubmit st outcome rt tr).1.messages
      = st.messages ++ [{ role := Role.user, content := st.input },
                        { role := Role.assistant, content := errorText,
                          responseTime := some rt }]
    ∧ errorText = "Sorry, there was an error processing your message."
    ∧ (handleSubmit st outcome rt tr).2.2 = [errorDetail outcome] := by
  rw [handleSubmit_error_eq st outcome rt tr hguard herr]
  refine ⟨?_, rfl, rfl⟩
  simp

/-- Witness for C5: a failing fetch on a non-empty input. -/
theorem c5_error_surfaces_fixed_message_witness :
    ((jsTrim (ChatState.mk [] "hello" false false ("t") []).input
        == "" || (ChatState.mk [] "hello" false false ("t") []).isLoading) = false)
    ∧ (isErrorOutcome (ChatOutcome.fetchError ("ECONNREFUSED")) = true)
    ∧ (handleSubmit (ChatState.mk [] "hello" false false ("t") [])
        (ChatOutcome.fetchError ("ECONNREFUSED")) 4 none).1.messages
      = [{ role := Role.user, content := "hello" },
         { role := Role.assistant, content := errorText, responseTime := some 4 }] := by
  refine ⟨by decide, rfl, ?_⟩
  have h := (c5_error_surfaces_fixed_message (ChatState.mk [] "hello" false false ("t") [])
    (ChatOutcome.fetchError ("ECONNREFUSED")) 4 none (by decide) rfl).1
  simpa using h

/-- C6: within one run of `handleSubmit` the user message is appended before
any assistant content, everything appended after it has the assistant role,
and the rendered order is exactly the ascending list-index order. -/
theorem c6_send_order (st : ChatState) (outcome : ChatOutcome) (rt : Nat)
    (tr : Option (List Thread))
    (hguard : (jsTrim st.input == "" || st.isLoading) = false) :
    ∃ rest : List Message,
      (handleSubmit st outcome rt tr).1.messages
        = st.messages ++ ({ role := Role.user, content := st.input } : Message) :: rest
      ∧ (∀ m ∈ rest, m.role = Role.assistant)
      ∧ displayedMessages ((handleSubmit st outcome rt tr).1.messages)
        = (handleSubmit st outcome rt tr).1.messages := by
  cases houtcome : isErrorOutcome outcome with
  | true =>
    refine ⟨[{ role := Role.assistant, content := errorText, responseTime := some rt }],
      ?_, ?_, displayedMessages_eq _⟩
    · rw [handleSubmit_error_eq st outcome rt tr hguard houtcome]
      simp
    · intro m hm
      simp at hm
      rw [hm]
  | false =>
    cases outcome with
    | fetchError d => exact absurd houtcome (by simp [isErrorOutcome])
    | notOk => exact absurd houtcome (by simp [isErrorOutcome])
    | noReader => exact absurd houtcome (by simp [isErrorOutcome])
    | success chunks =>
      rw [handleSubmit_success_eq st chunks rt tr hguard]
      rw [consumeStream_eq]
      by_cases hws : (jsTrim (concatChunks chunks) == "") = true
      · refine ⟨[], ?_, by simp, displayedMessages_eq _⟩
        rw [if_pos hws]
        rw [attachResponseTime_append _ _ rt]
        simp
      · refine ⟨[{ role := Role.assistant,
                   content := concatChunks chunks,
                   responseTime := some rt }], ?_, ?_, displayedMessages_eq _⟩
        · rw [if_neg hws]
          rw [attachResponseTime_append _ _ rt]
          simp
        · intro m hm
          simp at hm
          rw [hm]

/-- Witness for C6: a successful streamed answer on a non-empty input. -/
theorem c6_send_order_witness :
    ((jsTrim (ChatState.mk [] "hi" false false ("t") []).input
        == "" || (ChatState.mk [] "hi" false false ("t") []).isLoading) = false)
    ∧ ∃ rest : List Message,
        (handleSubmit (ChatState.mk [] "hi" false false ("t") [])
          (ChatOutcome.success ["ok"]) 2 none).1.messages
          = [] ++ ({ role := Role.user, content := "hi" } : Message) :: rest
        ∧ (∀ m ∈ rest, m.role = Role.assistant)
        ∧ displayedMessages ((handleSubmit (ChatState.mk [] "hi" false false ("t") [])
            (ChatOutcome.success ["ok"]) 2 none).1.messages)
          = (handleSubmit (ChatState.mk [] "hi" false false ("t") [])
              (ChatOutcome.success ["ok"]) 2 none).1.messages := by
  exact ⟨by decide, c6_send_order (ChatState.mk [] "hi" false false ("t") [])
    (ChatOutcome.success ["ok"]) 2 none (by decide)⟩

/-- C9: when the whole streamed body trims to whitespace, no assistant message
is appended: the list ends with only the user message appended, and the
responseTime-attaching update leaves every message unchanged. -/
theorem c9_whitespace_stream_appends_nothing (st : ChatState) (chunks : List String)
    (rt : Nat) (tr : Option (List Thread))
    (hguard : (jsTrim st.input == "" || st.isLoading) = false)
    (hws : (jsTrim (concatChunks chunks) == "") = true) :
    (handleSubmit st (ChatOutcome.success chunks) rt tr).1.messages
      = st.messages ++ [{ role := Role.user, content := st.input }]
    ∧ attachResponseTime
        (consumeStream (st.messages ++ [{ role := Role.user, content := st.input }])
          chunks).messages rt
      = (consumeStream (st.messages ++ [{ role := Role.user, content := st.input }])
          chunks).messages := by
  have hmsgs :
      (consumeStream (st.messages ++ [{ role := Role.user, content := st.input }])
        chunks).messages
      = st.messages ++ [{ role := Role.user, content := st.input }] := by
    rw [consumeStream_eq, if_pos hws]
  have hattach :
      attachResponseTime
        (st.messages ++ [({ role := Role.user, content := st.input } : Message)]) rt
      = st.messages ++ [{ role := Role.user, content := st.input }] := by
    rw [attachResponseTime_append]
    simp
  constructor
  · rw [handleSubmit_success_eq st chunks rt tr hguard]
    simp only
    rw [hmsgs, hattach]
  · rw [hmsgs, hattach]

/-- Witness for C9: a stream of two whitespace-only fragments. -/
theorem c9_whitespace_stream_appends_nothing_witness :
    ((jsTrim (ChatState.mk [] "hi" false false ("t") []).input
        == "" || (ChatState.mk [] "hi" false false ("t") []).isLoading) = false)
    ∧ ((jsTrim (concatChunks [" ", "  "]) == "") = true)
    ∧ (handleSubmit (ChatState.mk [] "hi" false false ("t") [])
        (ChatOutcome.success [" ", "  "]) 2 none).1.messages
      = [{ role := Role.user, content := "hi" }] := by
  refine ⟨by decide, by decide, ?_⟩
  have h := (c9_whitespace_stream_appends_nothing (ChatState.mk [] "hi" false false ("t") [])
    [" ", "  "] 2 none (by decide) (by decide)).1
  simpa using h

/-- C3: for a successful chat request whose streamed body holds at least one
non-whitespace character, the loop renders incrementally: as soon as any
prefix of the fragments trims non-empty the assistant message is already in
the list, and once the stream is exhausted its content is the concatenation,
in arrival order, of all decoded fragments. -/
theorem c3_stream_renders_incrementally (st : ChatState) (chunks : List String)
    (rt : Nat) (tr : Option (List Thread))
    (hguard : (jsTrim st.input == "" || st.isLoading) = false)
    (hnw : (jsTrim (concatChunks chunks) == "") = false) :
    (∀ p q, chunks = p ++ q → (jsTrim (concatChunks p) == "") = false →
      (consumeStream (st.messages ++ [{ role := Role.user, content := st.input }])
          p).added = true
      ∧ (consumeStream (st.messages ++ [{ role := Role.user, content := st.input }])
          p).messages
        = st.messages ++ [{ role := Role.user, content := st.input },
                          { role := Role.assistant, content := concatChunks p }])
    ∧ (handleSubmit st (ChatOutcome.success chunks) rt tr).1.messages
      = st.messages ++ [{ role := Role.user, content := st.input },
                        { role := Role.assistant, content := concatChunks chunks,
                          responseTime := some rt }] := by
  constructor
  · intro p q hpq hp
    rw [consumeStream_eq]
    rw [if_neg (by simp [hp])]
    exact ⟨rfl, by simp⟩
  · rw [handleSubmit_success_eq st chunks rt tr hguard]
    rw [consumeStream_eq, if_neg (by simp [hnw])]
    rw [attachResponseTime_append _ _ rt]
    simp

/-- Witness for C3: the stream arrives as two fragments of a non-empty text. -/
theorem c3_stream_renders_incrementally_witness :
    ((jsTrim (ChatState.mk [] "hi" false false ("t") []).input
        == "" || (ChatState.mk [] "hi" false false ("t") []).isLoading) = false)
    ∧ ((jsTrim (concatChunks ["he", "llo"]) == "") = false)
    ∧ (handleSubmit (ChatState.mk [] "hi" false false ("t") [])
        (ChatOutcome.success ["he", "llo"]) 2 none).1.messages
      = [] ++ [{ role := Role.user, content := "hi" },
               { role := Role.assistant, content := concatChunks ["he", "llo"],
                 responseTime := some 2 }] := by
  refine ⟨by decide, by decide, ?_⟩
  exact (c3_stream_renders_incrementally (ChatState.mk [] "hi" false false ("t") [])
    ["he", "llo"] 2 none (by decide) (by decide)).2

/-- C4: the stream updates are append-only frame updates: each step either
leaves the list unchanged, appends the single assistant message, or rewrites
only the last (assistant) message, extending its content; during consumption
no appended message carries a responseTime, and the responseTime is attached
exactly once, by the single post-loop update. -/
theorem c4_messages_append_only (msgs0 : List Message) (p : List String) (c : String)
    (rt : Nat) :
    ((consumeStream msgs0 (p ++ [c])).messages = (consumeStream msgs0 p).messages
     ∨ (consumeStream msgs0 (p ++ [c])).messages
       = (consumeStream msgs0 p).messages
         ++ [{ role := Role.assistant,
               content := (consumeStream msgs0 (p ++ [c])).accumulated }]
     ∨ ∃ m ext, (consumeStream msgs0 p).messages = msgs0 ++ [m]
         ∧ m.role = Role.assistant ∧ m.responseTime = none
         ∧ (consumeStream msgs0 (p ++ [c])).messages
           = msgs0 ++ [{ role := Role.assistant,
                         content := (consumeStream msgs0 (p ++ [c])).accumulated }]
         ∧ (consumeStream msgs0 (p ++ [c])).accumulated = m.content ++ ext)
    ∧ (∀ m ∈ (consumeStream msgs0 p).messages.drop msgs0.length, m.responseTime = none)
    ∧ ((jsTrim (concatChunks p) == "") = false →
        attachResponseTime (consumeStream msgs0 p).messages rt
        = msgs0 ++ [{ role := Role.assistant, content := concatChunks p,
                      responseTime := some rt }]) := by
  have hcat : concatChunks (p ++ [c]) = concatChunks p ++ (c ++ "") := by
    rw [concatChunks_append]
    rfl
  refine ⟨?_, ?_, ?_⟩
  · by_cases hp : (jsTrim (concatChunks p) == "") = true
    · by_cases hpc : (jsTrim (concatChunks (p ++ [c])) == "") = true
      · left
        rw [consumeStream_eq, consumeStream_eq, if_pos hp, if_pos hpc]
      · right
        left
        rw [consumeStream_eq, consumeStream_eq, if_pos hp,
          if_neg hpc]
    · have hpf : (jsTrim (concatChunks p) == "") = false := eq_false_of_ne_true hp
      have hpc : (jsTrim (concatChunks (p ++ [c])) == "") = false := by
        rw [hcat]
        exact jsTrim_nonempty_append _ _ hpf
      right
      right
      refine ⟨{ role := Role.assistant, content := concatChunks p }, c ++ "",
        ?_, rfl, rfl, ?_, ?_⟩
      · rw [consumeStream_eq, if_neg (by simp [hpf])]
      · rw [consumeStream_eq, if_neg (by simp [hpc])]
      · rw [consumeStream_eq, if_neg (by simp [hpc])]
        exact hcat
  · by_cases hp : (jsTrim (concatChunks p) == "") = true
    · rw [consumeStream_eq, if_pos hp]
      simp
    · rw [consumeStream_eq, if_neg hp]
      intro m hm
      rw [List.drop_left] at hm
      simp at hm
      rw [hm]
  · intro hpf
    rw [consumeStream_eq, if_neg (by simp [hpf])]
    rw [attachResponseTime_append _ _ rt]
    simp

/-- Witness for C4: attaching the response time after a one-fragment stream. -/
theorem c4_messages_append_only_witness :
    ((jsTrim (concatChunks ["a"]) == "") = false)
    ∧ attachResponseTime (consumeStream [] ["a"]).messages 1
      = [] ++ [{ role := Role.assistant, content := concatChunks ["a"],
                 responseTime := some 1 }] := by
  exact ⟨by decide, (c4_messages_append_only [] ["a"] ("b") 1).2.2 (by decide)⟩

/-- With pairwise-distinct thread ids, membership of a thread id in the ids
of the empty threads is the same test as having a zero message count. -/
theorem emptyThreadIds_contains (threads : List Thread)
    (hids : (threads.map Thread.id).Nodup) (t : Thread) (ht : t ∈ threads) :
    ((threads.filter (fun u => u.message_count == 0)).map Thread.id).contains t.id
    = (t.message_count == 0) := by
  rw [Bool.eq_iff_iff]
  constructor
  · intro hc
    have hmem : t.id ∈ (threads.filter (fun u => u.message_count == 0)).map Thread.id := by
      simpa using hc
    rcases List.mem_map.mp hmem with ⟨u, hu, hui⟩
    rcases List.mem_filter.mp hu with ⟨humem, huz⟩
    have : u = t := List.inj_on_of_nodup_map hids humem ht hui
    rw [← this]
    exact huz
  · intro hz
    have hmem : t ∈ threads.filter (fun u => u.message_count == 0) :=
      List.mem_filter.mpr ⟨ht, hz⟩
    simpa using List.mem_map.mpr ⟨t, hmem, rfl⟩

/-- The local removal of `handleNewChat` keeps exactly the threads with a
non-zero message count. -/
theorem handleNewChat_threads1 (threads : List Thread)
    (hids : (threads.map Thread.id).Nodup) :
    (if (threads.filter (fun t => t.message_count == 0)).length > 0 then
      threads.filter (fun t =>
        !(((threads.filter (fun u => u.message_count == 0)).map Thread.id).contains t.id))
    else threads)
    = threads.filter (fun t => !(t.message_count == 0)) := by
  by_cases hlen : (threads.filter (fun t => t.message_count == 0)).length > 0
  · rw [if_pos hlen]
    apply List.filter_congr
    intro t ht
    rw [emptyThreadIds_contains threads hids t ht]
  · rw [if_neg hlen]
    have hempty : ∀ t ∈ threads, ¬(t.message_count == 0) = true := by
      rw [← List.filter_eq_nil_iff]
      cases hfe : threads.filter (fun t => t.message_count == 0) with
      | nil => rfl
      | cons a l =>
        rw [hfe] at hlen
        simp at hlen
    symm
    rw [List.filter_eq_self]
    intro t ht
    simpa using hempty t ht

/-- C2: with N empty threads present, starting a new chat issues a DELETE for
exactly those N threads (one each, in list order), removes exactly those N
threads from the local list (prepending the created thread when the POST
succeeds), and issues exactly one thread-creation request, after all the
deletions. -/
theorem c2_handleNewChat_cleanup (st : ChatState) (resp : Option Thread)
    (rs : Nat → Nat) (hids : (st.threads.map Thread.id).Nodup) :
    (handleNewChat st resp rs).2
      = (st.threads.filter (fun t => t.message_count == 0)).map
          (fun t => Request.deleteThread t.id)
        ++ [Request.createThreadPost]
    ∧ (handleNewChat st resp rs).1.threads
      = (match resp with
         | some th => [th]
         | none => ([] : List Thread))
        ++ st.threads.filter (fun t => !(t.message_count == 0)) := by
  have h1 := handleNewChat_threads1 st.threads hids
  cases resp with
  | some th =>
    refine ⟨rfl, ?_⟩
    simp only [handleNewChat, createThread]
    rw [h1]
    rfl
  | none =>
    refine ⟨rfl, ?_⟩
    simp only [handleNewChat, createThread]
    rw [h1]
    rfl

/-- Witness for C2: two empty threads around a non-empty one, with a failing
creation POST. -/
theorem c2_handleNewChat_cleanup_witness :
    ((([Thread.mk ("a") "A" 0 0 0, Thread.mk ("b") "B" 0 0 2,
        Thread.mk ("c") "C" 0 0 0] : List Thread).map Thread.id).Nodup)
    ∧ (handleNewChat
        (ChatState.mk [] "" false false ("t")
          [Thread.mk ("a") "A" 0 0 0, Thread.mk ("b") "B" 0 0 2, Thread.mk ("c") "C" 0 0 0])
        none (fun _ => 0)).2
      = [Request.deleteThread ("a"), Request.deleteThread ("c"), Request.createThreadPost]
    ∧ (handleNewChat
        (ChatState.mk [] "" false false ("t")
          [Thread.mk ("a") "A" 0 0 0, Thread.mk ("b") "B" 0 0 2, Thread.mk ("c") "C" 0 0 0])
        none (fun _ => 0)).1.threads
      = [Thread.mk ("b") "B" 0 0 2] := by
  refine ⟨by decide, ?_, ?_⟩
  · have h := (c2_handleNewChat_cleanup
      (ChatState.mk [] "" false false ("t")
        [Thread.mk ("a") "A" 0 0 0, Thread.mk ("b") "B" 0 0 2, Thread.mk ("c") "C" 0 0 0])
      none (fun _ => 0) (by decide)).1
    rw [h]
    rfl
  · have h := (c2_handleNewChat_cleanup
      (ChatState.mk [] "" false false ("t")
        [Thread.mk ("a") "A" 0 0 0, Thread.mk ("b") "B" 0 0 2, Thread.mk ("c") "C" 0 0 0])
      none (fun _ => 0) (by decide)).2
    rw [h]
    rfl

/-- A lowercase hexadecimal digit: `0`-`9` or `a`-`f`. -/
def isLowerHexDigit (c : Char) : Bool :=
  ((48 ≤ c.toNat) && (c.toNat ≤ 57)) || ((97 ≤ c.toNat) && (c.toNat ≤ 102))

theorem hexDigit_isLowerHex : ∀ v, v < 16 → isLowerHexDigit (hexDigit v) = true := by
  decide

theorem hexDigitY_isLowerHex :
    ∀ v, v < 16 → isLowerHexDigit (hexDigit ((v &&& 0x3) ||| 0x8)) = true := by
  decide

theorem hexDigitY_mem :
    ∀ v, v < 16 →
      (hexDigit ((v &&& 0x3) ||| 0x8) = '8' ∨ hexDigit ((v &&& 0x3) ||| 0x8) = '9'
       ∨ hexDigit ((v &&& 0x3) ||| 0x8) = 'a' ∨ hexDigit ((v &&& 0x3) ||| 0x8) = 'b') := by
  decide

theorem genUUIDChars_eq (rs : Nat → Nat) :
    genUUIDChars rs uuidTemplate 0
    = [hexDigit (rs 0), hexDigit (rs 1), hexDigit (rs 2), hexDigit (rs 3),
       hexDigit (rs 4), hexDigit (rs 5), hexDigit (rs 6), hexDigit (rs 7), '-',
       hexDigit (rs 8), hexDigit (rs 9), hexDigit (rs 10), hexDigit (rs 11), '-',
       '4', hexDigit (rs 12), hexDigit (rs 13), hexDigit (rs 14), '-',
       hexDigit ((rs 15 &&& 0x3) ||| 0x8),
       hexDigit (rs 16), hexDigit (rs 17), hexDigit (rs 18), '-',
       hexDigit (rs 19), hexDigit (rs 20), hexDigit (rs 21), hexDigit (rs 22),
       hexDigit (rs 23), hexDigit (rs 24), hexDigit (rs 25), hexDigit (rs 26),
       hexDigit (rs 27), hexDigit (rs 28), hexDigit (rs 29), hexDigit (rs 30)] := by
  rfl

/-- C10: whatever values the random source yields (each the floor of
`Math.random() * 16`, hence below 16), `generateUUID` returns a 36-character
version-4 UUID: hyphens exactly at positions 8, 13, 18 and 23, the character
at position 14 is `4`, the character at position 19 is one of `8`, `9`, `a`,
`b`, every other character is a lowercase hexadecimal digit, and this string
is the thread id returned when the creation POST fails. -/
theorem c10_generateUUID_format (rs : Nat → Nat) (h : ∀ i, rs i < 16) (st : ChatState) :
    (generateUUID rs).length = 36
    ∧ ((generateUUID rs).toList.get? 8 = some '-'
       ∧ (generateUUID rs).toList.get? 13 = some '-'
       ∧ (generateUUID rs).toList.get? 18 = some '-'
       ∧ (generateUUID rs).toList.get? 23 = some '-')
    ∧ (generateUUID rs).toList.get? 14 = some '4'
    ∧ (∃ c, (generateUUID rs).toList.get? 19 = some c
        ∧ (c = '8' ∨ c = '9' ∨ c = 'a' ∨ c = 'b'))
    ∧ (∀ i, i < 36 → ¬(i = 8 ∨ i = 13 ∨ i = 18 ∨ i = 23) →
        ∃ c, (generateUUID rs).toList.get? i = some c ∧ isLowerHexDigit c = true)
    ∧ (createThread st none rs).2.2 = generateUUID rs := by
  have hl : (generateUUID rs).toList = genUUIDChars rs uuidTemplate 0 := rfl
  rw [genUUIDChars_eq] at hl
  refine ⟨?_, ⟨?_, ?_, ?_, ?_⟩, ?_, ?_, ?_, rfl⟩
  · show (generateUUID rs).toList.length = 36
    rw [hl]
    rfl
  · rw [hl]
    rfl
  · rw [hl]
    rfl
  · rw [hl]
    rfl
  · rw [hl]
    rfl
  · rw [hl]
    rfl
  · rw [hl]
    exact ⟨_, rfl, hexDigitY_mem (rs 15) (h 15)⟩
  · intro i hi hni
    rw [hl]
    interval_cases i
    · exact ⟨_, rfl, hexDigit_isLowerHex _ (h _)⟩
    · exact ⟨_, rfl, hexDigit_isLowerHex _ (h _)⟩
    · exact ⟨_, rfl, hexDigit_isLowerHex _ (h _)⟩
    · exact ⟨_, rfl, hexDigit_isLowerHex _ (h _)⟩
    · exact ⟨_, rfl, hexDigit_isLowerHex _ (h _)⟩
    · exact ⟨_, rfl, hexDigit_isLowerHex _ (h _)⟩
    · exact ⟨_, rfl, hexDigit_isLowerHex _ (h _)⟩
    · exact ⟨_, rfl, hexDigit_isLowerHex _ (h _)⟩
    · exact absurd (Or.inl rfl) hni
    · exact ⟨_, rfl, hexDigit_isLowerHex _ (h _)⟩
    · exact ⟨_, rfl, hexDigit_isLowerHex _ (h _)⟩
    · exact ⟨_, rfl, hexDigit_isLowerHex _ (h _)⟩
    · exact ⟨_, rfl, hexDigit_isLowerHex _ (h _)⟩
    · exact absurd (Or.inr (Or.inl rfl)) hni
    · exact ⟨'4', rfl, rfl⟩
    · exact ⟨_, rfl, hexDigit_isLowerHex _ (h _)⟩
    · exact ⟨_, rfl, hexDigit_isLowerHex _ (h _)⟩
    · exact ⟨_, rfl, hexDigit_isLowerHex _ (h _)⟩
    · exact absurd (Or.inr (Or.inr (Or.inl rfl))) hni
    · exact ⟨_, rfl, hexDigitY_isLowerHex _ (h _)⟩
    · exact ⟨_, rfl, hexDigit_isLowerHex _ (h _)⟩
    · exact ⟨_, rfl, hexDigit_isLowerHex _ (h _)⟩
    · exact ⟨_, rfl, hexDigit_isLowerHex _ (h _)⟩
    · exact absurd (Or.inr (Or.inr (Or.inr rfl))) hni
    · exact ⟨_, rfl, hexDigit_isLowerHex _ (h _)⟩
    · exact ⟨_, rfl, hexDigit_isLowerHex _ (h _)⟩
    · exact ⟨_, rfl, hexDigit_isLowerHex _ (h _)⟩
    · exact ⟨_, rfl, hexDigit_isLowerHex _ (h _)⟩
    · exact ⟨_, rfl, hexDigit_isLowerHex _ (h _)⟩
    · exact ⟨_, rfl, hexDigit_isLowerHex _ (h _)⟩
    · exact ⟨_, rfl, hexDigit_isLowerHex _ (h _)⟩
    · exact ⟨_, rfl, hexDigit_isLowerHex _ (h _)⟩
    · exact ⟨_, rfl, hexDigit_isLowerHex _ (h _)⟩
    · exact ⟨_, rfl, hexDigit_isLowerHex _ (h _)⟩
    · exact ⟨_, rfl, hexDigit_isLowerHex _ (h _)⟩
    · exact ⟨_, rfl, hexDigit_isLowerHex _ (h _)⟩

/-- Witness for C10: the constant-zero random source. -/
theorem c10_generateUUID_format_witness :
    (∀ i, (fun _ => 0 : Nat → Nat) i < 16)
    ∧ (generateUUID (fun _ => 0)).length = 36 := by
  refine ⟨fun _ => Nat.succ_le_succ (Nat.zero_le 15), ?_⟩
  exact (c10_generateUUID_format (fun _ => 0) (fun _ => Nat.succ_le_succ (Nat.zero_le 15))
    (ChatState.mk [] "" false false ("t") [])).1

end Arke
